import Mathlib

/-!
Shallow embedding of `src/mosaic.py` (photomosaic builder).

Images are modelled as row-major rasters of rational channel values:
`np.array(image)` of a PIL image of mode `L` is 2-D (modelled as
`channels = 1`), of mode `LA` has 2 channels, `RGB` 3, `RGBA` 4.
Pixel means are exact rationals (the floating-point mean of the source is
modelled exactly; `np.mean` over an empty axis yields a junk value and
continues, modelled by rational division by zero returning 0).

Python exceptions are modelled with `Except`: `decodeError` stands for the
exception `Image.open` raises on an unreadable file, `assertionError` for
the `assert False, "Image must be RGB"` in `average_color`, `valueError`
for the `ValueError` Pillow's `Image.resize` raises when either requested
dimension is zero ("height and width must be > 0"), and `indexError` for
the out-of-range read `tile_colors[i]` in the debug printing loop of
`create_mosaic`.

For nonzero sizes the codec's resampling filter in `Image.resize` is
abstracted as a deterministic nearest-neighbour pixel sampler: the claims
under verification depend only on the result's size, channel count and
determinism, never on filter weights.
-/

deriving instance DecidableEq for Except

namespace Mosaic

/-- A decoded raster: `data` is row-major, pixel `(x, y)` channel `c` at
offset `(y * width + x) * channels + c`. -/
structure Img where
  width : Nat
  height : Nat
  channels : Nat
  data : List ℚ
deriving DecidableEq

/-- Channel value at `(x, y, c)`; out-of-bounds reads are 0 (PIL pads
crops beyond the source with black). -/
def Img.px (img : Img) (x y c : Nat) : ℚ :=
  if x < img.width ∧ y < img.height ∧ c < img.channels then
    img.data.getD ((y * img.width + x) * img.channels + c) 0
  else 0

/-- Build a raster from a pixel function. -/
def mkImg (w h ch : Nat) (f : Nat → Nat → Nat → ℚ) : Img :=
  ⟨w, h, ch, (List.range (h * w * ch)).map (fun i => f (i / ch % w) (i / (ch * w)) (i % ch))⟩

@[simp] lemma mkImg_width (w h ch : Nat) (f : Nat → Nat → Nat → ℚ) : (mkImg w h ch f).width = w := rfl

@[simp] lemma mkImg_height (w h ch : Nat) (f : Nat → Nat → Nat → ℚ) : (mkImg w h ch f).height = h := rfl

@[simp] lemma mkImg_channels (w h ch : Nat) (f : Nat → Nat → Nat → ℚ) : (mkImg w h ch f).channels = ch := rfl

lemma getD_map_range (n i : Nat) (f : Nat → ℚ) (h : i < n) :
    ((List.range n).map f).getD i 0 = f i := by
  rw [List.getD_eq_getElem _ _ (by simpa using h)]
  simp

lemma mkImg_px (w h ch : Nat) (f : Nat → Nat → Nat → ℚ) (x y c : Nat) :
    (mkImg w h ch f).px x y c = if x < w ∧ y < h ∧ c < ch then f x y c else 0 := by
  by_cases hb : x < w ∧ y < h ∧ c < ch
  · obtain ⟨hx, hy, hc⟩ := hb
    have hch : 0 < ch := Nat.lt_of_le_of_lt (Nat.zero_le c) hc
    have hw : 0 < w := Nat.lt_of_le_of_lt (Nat.zero_le x) hx
    have hrow : y * w + x < h * w := by
      calc y * w + x < y * w + w := Nat.add_lt_add_left hx _
        _ = (y + 1) * w := by ring
        _ ≤ h * w := Nat.mul_le_mul_right w (Nat.succ_le_of_lt hy)
    have hlt : (y * w + x) * ch + c < h * w * ch := by
      calc (y * w + x) * ch + c < (y * w + x) * ch + ch := Nat.add_lt_add_left hc _
        _ = (y * w + x + 1) * ch := by ring
        _ ≤ h * w * ch := Nat.mul_le_mul_right ch (Nat.succ_le_of_lt hrow)
    have hmod : ((y * w + x) * ch + c) % ch = c := by
      rw [Nat.mul_add_mod']; exact Nat.mod_eq_of_lt hc
    have hdiv : ((y * w + x) * ch + c) / ch = y * w + x := by
      rw [Nat.mul_comm (y * w + x) ch, Nat.mul_add_div hch, Nat.div_eq_of_lt hc, Nat.add_zero]
    have hdivmod : ((y * w + x) * ch + c) / ch % w = x := by
      rw [hdiv, Nat.mul_add_mod']; exact Nat.mod_eq_of_lt hx
    have hsplit : (y * w + x) * ch + c = (ch * w) * y + (x * ch + c) := by ring
    have hrem : x * ch + c < ch * w := by
      calc x * ch + c < x * ch + ch := Nat.add_lt_add_left hc _
        _ = (x + 1) * ch := by ring
        _ ≤ w * ch := Nat.mul_le_mul_right ch (Nat.succ_le_of_lt hx)
        _ = ch * w := Nat.mul_comm w ch
    have hdiv2 : ((y * w + x) * ch + c) / (ch * w) = y := by
      rw [hsplit, Nat.mul_add_div (Nat.mul_pos hch hw), Nat.div_eq_of_lt hrem, Nat.add_zero]
    rw [if_pos ⟨hx, hy, hc⟩]
    show (if x < w ∧ y < h ∧ c < ch then
        ((List.range (h * w * ch)).map _).getD ((y * w + x) * ch + c) 0 else 0) = f x y c
    rw [if_pos ⟨hx, hy, hc⟩, getD_map_range _ _ _ hlt, hdivmod, hdiv2, hmod]
  · rw [if_neg hb]
    show (if x < w ∧ y < h ∧ c < ch then _ else 0) = 0
    rw [if_neg hb]

/-- An RGB color as produced by `np.mean(arr, axis=(0, 1))`: one entry per
channel of the array (the source intends 3, but 2-channel arrays slip
through, see `average_color`). -/
abbrev Color := List ℚ

/-- Python exceptions relevant to the script. -/
inductive MosaicError where
  | decodeError
  | assertionError
  | valueError
  | indexError
deriving DecidableEq

/-- The spatial mean of one channel: `np.mean(arr, axis=(0,1))` component
`c`. Mean over an empty raster is modelled as 0 (numpy yields `nan` with a
warning and likewise continues). -/
def channelMean (img : Img) (c : Nat) : ℚ :=
  (((List.range img.height).map
      (fun y => ((List.range img.width).map (fun x => img.px x y c)).sum)).sum)
    / ((img.width : ℚ) * (img.height : ℚ))

/-- The stacking step `np.stack([arr] * 3, axis=-1)` applied to a 2-D
(grayscale) array. -/
def stackGray (img : Img) : Img :=
  mkImg img.width img.height 3 (fun x y _ => img.px x y 0)

/-- Function `average_color` from `src/mosaic.py`:
grayscale (2-D) arrays are stacked to 3 channels, then 4-channel arrays
hit `assert False, "Image must be RGB"`; anything else gets its per-channel
spatial mean. -/
def average_color (img : Img) : Except MosaicError Color :=
  let arr := if img.channels = 1 then stackGray img else img
  if arr.channels = 4 then Except.error MosaicError.assertionError
  else Except.ok ((List.range arr.channels).map (fun c => channelMean arr c))

/-- The resampling step of `image.resize(size)` for a nonzero size: the
codec's filter is abstracted as deterministic nearest-neighbour sampling;
size and mode (channel count) follow PIL exactly. -/
def resampled (img : Img) (size : Nat × Nat) : Img :=
  mkImg size.1 size.2 img.channels
    (fun x y c => img.px (x * img.width / size.1) (y * img.height / size.2) c)

/-- Function `resize_image` from `src/mosaic.py`, i.e. `image.resize(size)`.
Pillow raises `ValueError` ("height and width must be > 0") when either
requested dimension is zero; otherwise it returns the resampled image. -/
def resize_image (img : Img) (size : Nat × Nat) : Except MosaicError Img :=
  if size.1 = 0 ∨ size.2 = 0 then Except.error MosaicError.valueError
  else Except.ok (resampled img size)

/-- The codec call `target_image.crop((left, top, right, bottom))`: result has size
`(right - left, bottom - top)`, source mode, out-of-source reads are
black. -/
def crop (img : Img) (left top right bottom : Nat) : Img :=
  mkImg (right - left) (bottom - top) img.channels
    (fun x y c => img.px (left + x) (top + y) c)

/-- The codec call of new image creation in RGB mode at size `(w, h)`:
an all-black RGB canvas. -/
def imageNew (w h : Nat) : Img := mkImg w h 3 (fun _ _ _ => 0)

/-- The codec call `mosaic_image.paste(tile, (left, top))`: overwrite the rectangle of
the canvas at offset `(left, top)` with the tile, clipped to the canvas. -/
def paste (canvas tile : Img) (left top : Nat) : Img :=
  mkImg canvas.width canvas.height canvas.channels
    (fun x y c =>
      if left ≤ x ∧ x < left + tile.width ∧ top ≤ y ∧ y < top + tile.height then
        tile.px (x - left) (y - top) c
      else canvas.px x y c)

/-- Degenerate raster used as the (unreachable) fallback of list indexing;
Python would raise `IndexError` there, which no analysed path hits. -/
def blankImg : Img := ⟨0, 0, 3, []⟩

/-- One row of `np.sum((tile_colors - target_color) ** 2, axis=1)`: squared
Euclidean distance of two colors. -/
def sqDist (a b : Color) : ℚ :=
  ((a.zip b).map (fun p => (p.1 - p.2) ^ 2)).sum

/-- Scan of `np.argmin`: `i` is the absolute index of the head of `xs`,
`bi`/`bv` the index and value of the incumbent minimum. A later element
replaces the incumbent only when strictly smaller, so the first minimum
wins. -/
def argminAux : List ℚ → Nat → Nat → ℚ → Nat
  | [], _, bi, _ => bi
  | x :: xs, i, bi, bv =>
    if x < bv then argminAux xs (i + 1) i x else argminAux xs (i + 1) bi bv

/-- Function `np.argmin` on a list of values (first occurrence of the minimum;
numpy raises on an empty array, a case no analysed path reaches, modelled
as 0). -/
def npArgmin : List ℚ → Nat
  | [] => 0
  | x :: xs => argminAux xs 1 0 x

/-- Function `closest_image` from `src/mosaic.py`: index of the tile color nearest
to the target color. The source takes `np.argmin` of the square roots of
the squared distances; `Real.sqrt` is strictly monotone on the
nonnegative squared sums, so the scan is performed on the squared
distances (see `argminAux_sqrt` below for the formal bridge). -/
def closest_image (tileColors : List Color) (targetColor : Color) : Nat :=
  npArgmin (tileColors.map (fun c => sqDist c targetColor))

/-- The tile-loading loop of `create_mosaic`. Each directory entry is the
decode outcome of `Image.open` on that file: `none` when the file is not a
readable image (the exception is raised *outside* the `try` block and
aborts the run), `some img` when it decodes. The resize also happens
*outside* the `try` block, so its `ValueError` likewise aborts the run.
The `try` block wraps only `average_color` (and the two appends); a
profiling failure skips the tile and keeps *both* lists unchanged.
`tileImages`/`tileColors` are the accumulated loop state. -/
def loadTiles (cw ch : Nat) :
    List (Option Img) → List Img → List Color → Except MosaicError (List Img × List Color)
  | [], tileImages, tileColors => Except.ok (tileImages, tileColors)
  | file :: rest, tileImages, tileColors =>
    match file with
    | none => Except.error MosaicError.decodeError
    | some tileImage =>
      match resize_image tileImage (cw, ch) with
      | Except.error e => Except.error e
      | Except.ok resizedTile =>
        match average_color resizedTile with
        | Except.ok c =>
          loadTiles cw ch rest (tileImages ++ [resizedTile]) (tileColors ++ [c])
        | Except.error _ => loadTiles cw ch rest tileImages tileColors

/-- One iteration of the cell loop of `create_mosaic`: crop the cell,
profile it (an alpha-channel target raises here, uncaught), pick the
nearest tile, paste it. -/
def placeCell (target : Img) (tileImages : List Img) (tileColors : List Color)
    (cw ch : Nat) (canvas : Img) (ij : Nat × Nat) : Except MosaicError Img :=
  let left := ij.1 * cw
  let top := ij.2 * ch
  let right := (ij.1 + 1) * cw
  let bottom := (ij.2 + 1) * ch
  let gridCell := crop target left top right bottom
  match average_color gridCell with
  | Except.error e => Except.error e
  | Except.ok targetColor =>
    let tileIndex := closest_image tileColors targetColor
    let bestTile := tileImages.getD tileIndex blankImg
    Except.ok (paste canvas bestTile left top)

/-- The nested cell loops of `create_mosaic`, over an explicit worklist of
cell coordinates. -/
def assembleGo (target : Img) (tileImages : List Img) (tileColors : List Color)
    (cw ch : Nat) : List (Nat × Nat) → Img → Except MosaicError Img
  | [], canvas => Except.ok canvas
  | ij :: rest, canvas =>
    match placeCell target tileImages tileColors cw ch canvas ij with
    | Except.error e => Except.error e
    | Except.ok canvas' => assembleGo target tileImages tileColors cw ch rest canvas'

/-- Cell coordinates in source order: `for i in range(grid_size[0]): for j
in range(grid_size[1])`. -/
def gridCells (g : Nat × Nat) : List (Nat × Nat) :=
  (List.range g.1).flatMap (fun i => (List.range g.2).map (fun j => (i, j)))

/-- Function `create_mosaic` from `src/mosaic.py`. The target is the decoded target
image, `tileDir` the directory listing with each file's decode outcome,
`gridSize = (columns, rows)`. After the tile loop the source runs
`for i in range(1000): print(tile_colors[i])`, which raises `IndexError`
exactly when fewer than 1000 tile colors were collected; only then is the
blank canvas created and the cell loop run. -/
def create_mosaic (target : Img) (tileDir : List (Option Img)) (gridSize : Nat × Nat) :
    Except MosaicError Img :=
  let targetWidth := target.width
  let targetHeight := target.height
  let cellWidth := targetWidth / gridSize.1
  let cellHeight := targetHeight / gridSize.2
  match loadTiles cellWidth cellHeight tileDir [] [] with
  | Except.error e => Except.error e
  | Except.ok (tileImages, tileColors) =>
    if tileColors.length < 1000 then Except.error MosaicError.indexError
    else
      assembleGo target tileImages tileColors cellWidth cellHeight
        (gridCells gridSize) (imageNew targetWidth targetHeight)

/-! ### Concrete inputs used by witnesses and counterexamples -/

/-- A 1×1 RGB tile of solid color (5, 5, 5). -/
def tile0 : Img := ⟨1, 1, 3, [5, 5, 5]⟩

/-- A 2×2 all-black RGB target image. -/
def target0 : Img := ⟨2, 2, 3, [0, 0, 0, 0, 0, 0, 0, 0, 0, 0, 0, 0]⟩

/-- A 1×1 RGBA (4-channel) tile. -/
def rgbaTile0 : Img := ⟨1, 1, 4, [1, 2, 3, 4]⟩

/-- A 1×1 grayscale+alpha (2-channel, PIL mode LA) image with gray 7 and
alpha 3. -/
def laImg0 : Img := ⟨1, 1, 2, [7, 3]⟩

/-- A directory listing of 1000 copies of the good tile (enough to survive
the debug printing loop). -/
def dir1000 : List (Option Img) := List.replicate 1000 (some tile0)

/-- The canvas produced from `target0` and `dir1000` with a 2×2 grid:
every cell is painted with the tile, so all 12 channel values are 5. -/
def mosaic0 : Img := ⟨2, 2, 3, List.replicate 12 5⟩

set_option maxRecDepth 100000 in
/-- Evaluation of the reference run: 2×2 grid over `target0` with 1000
good tiles paints the whole canvas with the tile color. -/
lemma run2_eval : create_mosaic target0 dir1000 (2, 2) = Except.ok mosaic0 := by
  with_unfolding_all rfl

/-- Evaluation of the degenerate-grid run: a 3×3 grid on the 2×2 target
floors both cell dimensions to zero, so resizing the very first tile
raises Pillow's `ValueError` outside the `try` block and the run aborts
there. -/
lemma run3_eval : create_mosaic target0 dir1000 (3, 3) =
    Except.error MosaicError.valueError := by
  with_unfolding_all rfl

/-! ### Basic facts about the embedded operations -/

/-- A successful resize produced exactly the resampled image. -/
lemma resize_image_ok {img : Img} {size : Nat × Nat} {r : Img}
    (h : resize_image img size = Except.ok r) : r = resampled img size := by
  unfold resize_image at h
  split at h
  · exact absurd h (by simp)
  · exact (Except.ok.inj h).symm

/-- The only exception `average_color` can raise is the assertion
failure. -/
lemma average_color_error {img : Img} {e : MosaicError}
    (h : average_color img = Except.error e) : e = MosaicError.assertionError := by
  unfold average_color at h
  dsimp only at h
  split at h <;> split at h
  all_goals first
  | exact (Except.error.inj h).symm
  | simp at h

/-! ### Claim C1 -/

/-- Claim C1 (code_bug): the spec says `average_color` fails for *every*
image with an alpha channel, including 2-channel grayscale+alpha. The
code's check is `arr.shape[-1] == 4` only: the 4-channel input does hit
the assertion, but the 2-channel grayscale+alpha input passes both branch
tests and returns the 2-component mean `[7, 3]` — a value derived from
alpha data, contradicting the function's own docstring ("always return
RGB values") and the assertion message ("Image must be RGB"). -/
theorem average_color_alpha_divergence :
    average_color rgbaTile0 = Except.error MosaicError.assertionError ∧
    average_color laImg0 = Except.ok [7, 3] :=
  ⟨by with_unfolding_all rfl, by with_unfolding_all rfl⟩

/-! ### Claim C2 -/

/-- One unfolding step of the tile loop on a decodable file. -/
lemma loadTiles_cons_some (cw ch : Nat) (fs : List (Option Img))
    (imgs : List Img) (cols : List Color) (img : Img) :
    loadTiles cw ch (some img :: fs) imgs cols =
      match resize_image img (cw, ch) with
      | Except.error e => Except.error e
      | Except.ok resizedTile =>
        match average_color resizedTile with
        | Except.ok c =>
          loadTiles cw ch fs (imgs ++ [resizedTile]) (cols ++ [c])
        | Except.error _ => loadTiles cw ch fs imgs cols := rfl

/-- Claim C2 (corrected), amended statement: only failures raised by
`average_color` during profiling are caught by the `try` block and skip
the tile, leaving the loop state unchanged and continuing with the rest;
a decode failure (`Image.open` raising, modelled by a `none` directory
entry) and a resize failure both happen *outside* the `try` block and
abort the whole run. -/
theorem loadTiles_skip_policy (cw ch : Nat) (fs : List (Option Img))
    (imgs : List Img) (cols : List Color) :
    (∀ img r e, resize_image img (cw, ch) = Except.ok r →
        average_color r = Except.error e →
        loadTiles cw ch (some img :: fs) imgs cols = loadTiles cw ch fs imgs cols) ∧
    loadTiles cw ch (none :: fs) imgs cols = Except.error MosaicError.decodeError ∧
    (∀ img e, resize_image img (cw, ch) = Except.error e →
        loadTiles cw ch (some img :: fs) imgs cols = Except.error e) := by
  refine ⟨fun img r e hres havg => ?_, rfl, fun img e hres => ?_⟩
  · have hstep : loadTiles cw ch (some img :: fs) imgs cols =
        match average_color r with
        | Except.ok c => loadTiles cw ch fs (imgs ++ [r]) (cols ++ [c])
        | Except.error _ => loadTiles cw ch fs imgs cols := by
      rw [loadTiles_cons_some, hres]
    rw [hstep, havg]
  · rw [loadTiles_cons_some, hres]

/-- Witness for `loadTiles_skip_policy`: an RGBA tile resizes fine but
makes profiling fail, and processing it leaves the lists exactly as if the
file were absent. -/
theorem loadTiles_skip_policy_witness :
    resize_image rgbaTile0 (1, 1) = Except.ok (resampled rgbaTile0 (1, 1)) ∧
    average_color (resampled rgbaTile0 (1, 1)) = Except.error MosaicError.assertionError ∧
    loadTiles 1 1 [some rgbaTile0] [] [] = loadTiles 1 1 [] [] [] :=
  ⟨by with_unfolding_all rfl, by with_unfolding_all rfl,
    (loadTiles_skip_policy 1 1 [] [] []).1 rgbaTile0 (resampled rgbaTile0 (1, 1))
      MosaicError.assertionError (by with_unfolding_all rfl) (by with_unfolding_all rfl)⟩

/-- Claim C2 counterexample: a directory whose first file is not a valid
image, followed by 1000 perfectly good tiles. If tile-level failures never
aborted the run, the run would return a canvas; instead the uncaught
decode exception aborts it. -/
theorem createMosaic_decode_abort :
    create_mosaic target0 (none :: dir1000) (2, 2) = Except.error MosaicError.decodeError := by
  with_unfolding_all rfl

/-! ### The argmin scan -/

/-- Full characterisation of the `np.argmin` scan: either the incumbent
survives (every remaining element is at least `bv`), or the scan lands on
the first remaining element that is strictly below the incumbent and not
exceeded by any other remaining element, strictly below all earlier
remaining ones. -/
lemma argminAux_spec (xs : List ℚ) : ∀ (i bi : Nat) (bv : ℚ),
    (argminAux xs i bi bv = bi ∧ ∀ k, k < xs.length → bv ≤ xs.getD k 0) ∨
    (∃ k, k < xs.length ∧ argminAux xs i bi bv = i + k ∧ xs.getD k 0 < bv ∧
      (∀ m, m < xs.length → xs.getD k 0 ≤ xs.getD m 0) ∧
      (∀ m, m < k → xs.getD k 0 < xs.getD m 0)) := by
  induction xs with
  | nil =>
    intro i bi bv
    exact Or.inl ⟨rfl, fun k hk => absurd hk (Nat.not_lt_zero k)⟩
  | cons x xs ih =>
    intro i bi bv
    by_cases hx : x < bv
    · have hstep : argminAux (x :: xs) i bi bv = argminAux xs (i + 1) i x := by
        simp only [argminAux, if_pos hx]
      rcases ih (i + 1) i x with ⟨heq, hall⟩ | ⟨k, hk, heq, hlt, hmin, hstrict⟩
      · refine Or.inr ⟨0, Nat.succ_pos _, by rw [hstep, heq, Nat.add_zero], by simpa using hx, ?_, ?_⟩
        · intro m hm
          cases m with
          | zero => simp
          | succ m => simpa using hall m (by simpa using hm)
        · intro m hm
          exact absurd hm (Nat.not_lt_zero m)
      · refine Or.inr ⟨k + 1, Nat.succ_lt_succ hk, by rw [hstep, heq]; omega,
          by simpa using lt_trans hlt hx, ?_, ?_⟩
        · intro m hm
          cases m with
          | zero => simpa using le_of_lt hlt
          | succ m => simpa using hmin m (by simpa using hm)
        · intro m hm
          cases m with
          | zero => simpa using hlt
          | succ m => simpa using hstrict m (Nat.lt_of_succ_lt_succ hm)
    · have hbv : bv ≤ x := le_of_not_lt hx
      have hstep : argminAux (x :: xs) i bi bv = argminAux xs (i + 1) bi bv := by
        simp only [argminAux, if_neg hx]
      rcases ih (i + 1) bi bv with ⟨heq, hall⟩ | ⟨k, hk, heq, hlt, hmin, hstrict⟩
      · refine Or.inl ⟨by rw [hstep, heq], ?_⟩
        intro m hm
        cases m with
        | zero => simpa using hbv
        | succ m => simpa using hall m (by simpa using hm)
      · refine Or.inr ⟨k + 1, Nat.succ_lt_succ hk, by rw [hstep, heq]; omega,
          by simpa using hlt, ?_, ?_⟩
        · intro m hm
          cases m with
          | zero => simpa using le_trans (le_of_lt hlt) hbv
          | succ m => simpa using hmin m (by simpa using hm)
        · intro m hm
          cases m with
          | zero => simpa using lt_of_lt_of_le hlt hbv
          | succ m => simpa using hstrict m (Nat.lt_of_succ_lt_succ hm)

/-- Function `np.argmin` on a nonempty list picks an index of a minimal element,
and the first such index. -/
lemma npArgmin_spec (l : List ℚ) (h : l ≠ []) :
    npArgmin l < l.length ∧
    (∀ j, j < l.length → l.getD (npArgmin l) 0 ≤ l.getD j 0) ∧
    (∀ j, j < npArgmin l → l.getD (npArgmin l) 0 < l.getD j 0) := by
  match l with
  | [] => exact absurd rfl h
  | x :: xs =>
    have hnp : npArgmin (x :: xs) = argminAux xs 1 0 x := rfl
    rcases argminAux_spec xs 1 0 x with ⟨heq, hall⟩ | ⟨k, hk, heq, hlt, hmin, hstrict⟩
    · rw [hnp, heq]
      refine ⟨Nat.succ_pos _, ?_, ?_⟩
      · intro j hj
        cases j with
        | zero => simp
        | succ j => simpa using hall j (by simpa using hj)
      · intro j hj
        exact absurd hj (Nat.not_lt_zero j)
    · have heq' : npArgmin (x :: xs) = k + 1 := by rw [hnp, heq]; omega
      rw [heq']
      refine ⟨by simpa using Nat.succ_lt_succ hk, ?_, ?_⟩
      · intro j hj
        cases j with
        | zero => simpa using le_of_lt hlt
        | succ j => simpa using hmin j (by simpa using hj)
      · intro j hj
        cases j with
        | zero => simpa using hlt
        | succ j => simpa using hstrict j (Nat.lt_of_succ_lt_succ hj)

lemma getD_map_sqDist (tcs : List Color) (t : Color) (j : Nat) (hj : j < tcs.length) :
    (tcs.map (fun c => sqDist c t)).getD j 0 = sqDist (tcs.getD j []) t := by
  rw [List.getD_eq_getElem _ _ (by simpa using hj), List.getD_eq_getElem _ _ hj,
    List.getElem_map]

/-- A squared distance (a sum of squares) is nonnegative. -/
lemma sqDist_nonneg (a b : Color) : 0 ≤ sqDist a b := by
  apply List.sum_nonneg
  intro q hq
  simp only [List.mem_map] at hq
  obtain ⟨p, _, rfl⟩ := hq
  positivity

/-! ### Claim C6 -/

/-- Claim C6 (confirmed): for every nonempty list of tile colors and every
target color, `closest_image` returns an in-range index whose tile color
is at minimum Euclidean distance (`√` of the squared distance) from the
target, and every strictly earlier index is at strictly greater distance —
the stable first-occurrence argmin. (The source scans `np.sqrt` of the
squared sums; `Real.sqrt` is monotone on them, used here to phrase the
result in genuine Euclidean distances.) -/
theorem closest_image_spec (tileColors : List Color) (targetColor : Color)
    (h : tileColors ≠ []) :
    closest_image tileColors targetColor < tileColors.length ∧
    (∀ j, j < tileColors.length →
      Real.sqrt (sqDist (tileColors.getD (closest_image tileColors targetColor) []) targetColor : ℝ) ≤
        Real.sqrt (sqDist (tileColors.getD j []) targetColor : ℝ)) ∧
    (∀ j, j < closest_image tileColors targetColor →
      Real.sqrt (sqDist (tileColors.getD (closest_image tileColors targetColor) []) targetColor : ℝ) <
        Real.sqrt (sqDist (tileColors.getD j []) targetColor : ℝ)) := by
  have hmapne : tileColors.map (fun c => sqDist c targetColor) ≠ [] := by
    simpa using h
  obtain ⟨hlen, hmin, hstrict⟩ := npArgmin_spec _ hmapne
  rw [List.length_map] at hlen
  have hci : closest_image tileColors targetColor =
      npArgmin (tileColors.map (fun c => sqDist c targetColor)) := rfl
  refine ⟨by rw [hci]; exact hlen, ?_, ?_⟩
  · intro j hj
    have := hmin j (by simpa using hj)
    rw [getD_map_sqDist _ _ _ hlen, getD_map_sqDist _ _ _ hj] at this
    rw [hci]
    exact Real.sqrt_le_sqrt (by exact_mod_cast this)
  · intro j hj
    have hj' : j < tileColors.length := lt_trans (by rwa [hci] at hj) hlen
    have := hstrict j (by rwa [hci] at hj)
    rw [getD_map_sqDist _ _ _ hlen, getD_map_sqDist _ _ _ hj'] at this
    rw [hci]
    exact Real.sqrt_lt_sqrt (by exact_mod_cast sqDist_nonneg _ _) (by exact_mod_cast this)

/-- Witness for `closest_image_spec` at a concrete tie: two identical tile
colors; the stable argmin properties hold at index `closest_image` of this
list. -/
theorem closest_image_spec_witness :
    ([[0, 0, 0], [0, 0, 0]] : List Color) ≠ [] ∧
    (closest_image [[0, 0, 0], [0, 0, 0]] [1, 1, 1] < ([[0, 0, 0], [0, 0, 0]] : List Color).length ∧
    (∀ j, j < ([[0, 0, 0], [0, 0, 0]] : List Color).length →
      Real.sqrt (sqDist (([[0, 0, 0], [0, 0, 0]] : List Color).getD (closest_image [[0, 0, 0], [0, 0, 0]] [1, 1, 1]) []) [1, 1, 1] : ℝ) ≤
        Real.sqrt (sqDist (([[0, 0, 0], [0, 0, 0]] : List Color).getD j []) [1, 1, 1] : ℝ)) ∧
    (∀ j, j < closest_image [[0, 0, 0], [0, 0, 0]] [1, 1, 1] →
      Real.sqrt (sqDist (([[0, 0, 0], [0, 0, 0]] : List Color).getD (closest_image [[0, 0, 0], [0, 0, 0]] [1, 1, 1]) []) [1, 1, 1] : ℝ) <
        Real.sqrt (sqDist (([[0, 0, 0], [0, 0, 0]] : List Color).getD j []) [1, 1, 1] : ℝ))) :=
  ⟨by simp, closest_image_spec [[0, 0, 0], [0, 0, 0]] [1, 1, 1] (by simp)⟩

/-! ### Claim C7 -/

/-- Each channel of the stacked grayscale array has the spatial mean of
the original single channel. -/
lemma channelMean_stackGray (img : Img) (c : Nat) (hc : c < 3) :
    channelMean (stackGray img) c = channelMean img 0 := by
  unfold channelMean
  have hw : (stackGray img).width = img.width := rfl
  have hh : (stackGray img).height = img.height := rfl
  rw [hw, hh]
  congr 1
  refine congrArg List.sum (List.map_congr_left ?_)
  intro y hy
  refine congrArg List.sum (List.map_congr_left ?_)
  intro x hx
  rw [List.mem_range] at hx hy
  show (mkImg img.width img.height 3 (fun x y _ => img.px x y 0)).px x y c = img.px x y 0
  rw [mkImg_px, if_pos ⟨hx, hy, hc⟩]

/-- A 2×1 grayscale image with pixel values 4 and 6. -/
def grayImg0 : Img := ⟨2, 1, 1, [4, 6]⟩

/-- Claim C7 (confirmed): for every single-channel image of size at least
1×1, `average_color` succeeds with a 3-component color whose components
all equal the arithmetic mean of the single channel over all pixels. -/
theorem average_color_grayscale (img : Img) (h1 : img.channels = 1)
    (_hw : 0 < img.width) (_hh : 0 < img.height) :
    average_color img =
      Except.ok [channelMean img 0, channelMean img 0, channelMean img 0] := by
  unfold average_color
  dsimp only
  have h4 : ¬ (stackGray img).channels = 4 := by simp [stackGray]
  rw [if_pos h1, if_neg h4]
  congr 1
  have h3 : (stackGray img).channels = 3 := rfl
  have hr : List.range 3 = [0, 1, 2] := rfl
  rw [h3, hr, List.map_cons, List.map_cons, List.map_cons, List.map_nil,
    channelMean_stackGray img 0 (by decide), channelMean_stackGray img 1 (by decide),
    channelMean_stackGray img 2 (by decide)]

/-- Witness for `average_color_grayscale`: the 2×1 grayscale image above,
whose channel mean is 5. -/
theorem average_color_grayscale_witness :
    (grayImg0.channels = 1 ∧ 0 < grayImg0.width ∧ 0 < grayImg0.height) ∧
    average_color grayImg0 =
      Except.ok [channelMean grayImg0 0, channelMean grayImg0 0, channelMean grayImg0 0] :=
  ⟨⟨rfl, by decide, by decide⟩,
    average_color_grayscale grayImg0 rfl (by decide) (by decide)⟩

/-! ### Claim C8 -/

/-- The Tile Set invariant: the color list and the image list have the
same length, and entry `k` of the color list is the profiled average
color of entry `k` of the image list. -/
def CoIndexed (imgs : List Img) (cols : List Color) : Prop :=
  cols.length = imgs.length ∧
  ∀ k, k < imgs.length → average_color (imgs.getD k blankImg) = Except.ok (cols.getD k [])

/-- Appending a successfully profiled tile to both lists preserves the
Tile Set invariant. -/
lemma CoIndexed.append {imgs : List Img} {cols : List Color} (h : CoIndexed imgs cols)
    {r : Img} {c : Color} (hr : average_color r = Except.ok c) :
    CoIndexed (imgs ++ [r]) (cols ++ [c]) := by
  obtain ⟨hlen, hidx⟩ := h
  refine ⟨by simp [hlen], ?_⟩
  intro k hk
  rcases Nat.lt_or_ge k imgs.length with hlt | hge
  · rw [List.getD_append imgs [r] blankImg k hlt,
      List.getD_append cols [c] [] k (hlen ▸ hlt)]
    exact hidx k hlt
  · have hk1 : k = imgs.length := by
      simp only [List.length_append, List.length_singleton] at hk
      omega
    subst hk1
    rw [List.getD_append_right imgs [r] blankImg _ (le_refl _),
      List.getD_append_right cols [c] [] _ (by omega)]
    simpa [hlen] using hr

/-- Claim C8 (confirmed): at every point of the tile-loading loop the two
accumulated lists are co-indexed. The loop state after any number of
iterations is the accumulator pair of a recursive call, so quantifying
over arbitrary co-indexed start states covers every intermediate point as
well as the end of the loop; a tile whose profiling fails leaves both
lists untouched simultaneously (see `loadTiles`). -/
theorem loadTiles_coindexed (cw ch : Nat) :
    ∀ (fs : List (Option Img)) (imgs : List Img) (cols : List Color),
      CoIndexed imgs cols →
      ∀ imgs' cols', loadTiles cw ch fs imgs cols = Except.ok (imgs', cols') →
        CoIndexed imgs' cols' := by
  intro fs
  induction fs with
  | nil =>
    intro imgs cols h imgs' cols' hrun
    simp only [loadTiles, Except.ok.injEq, Prod.mk.injEq] at hrun
    obtain ⟨h1, h2⟩ := hrun
    exact h1 ▸ h2 ▸ h
  | cons f fs ih =>
    intro imgs cols h imgs' cols' hrun
    match f with
    | none =>
      simp only [loadTiles] at hrun
      exact absurd hrun (by simp)
    | some img =>
      rw [loadTiles_cons_some] at hrun
      cases hres : resize_image img (cw, ch) with
      | error e =>
        rw [hres] at hrun
        exact absurd hrun (by simp)
      | ok r =>
        rw [hres] at hrun
        replace hrun : (match average_color r with
            | Except.ok c => loadTiles cw ch fs (imgs ++ [r]) (cols ++ [c])
            | Except.error _ => loadTiles cw ch fs imgs cols) =
            Except.ok (imgs', cols') := hrun
        cases havg : average_color r with
        | ok c =>
          rw [havg] at hrun
          exact ih _ _ (h.append havg) _ _ hrun
        | error e =>
          rw [havg] at hrun
          exact ih _ _ h _ _ hrun

/-- Witness for `loadTiles_coindexed`: starting from the empty (trivially
co-indexed) state and loading one good tile yields a co-indexed pair. -/
theorem loadTiles_coindexed_witness :
    CoIndexed [] [] ∧ CoIndexed [resampled tile0 (1, 1)] [[5, 5, 5]] :=
  ⟨⟨rfl, fun k hk => absurd hk (Nat.not_lt_zero k)⟩,
    loadTiles_coindexed 1 1 [some tile0] [] []
      ⟨rfl, fun k hk => absurd hk (Nat.not_lt_zero k)⟩
      [resampled tile0 (1, 1)] [[5, 5, 5]] (by with_unfolding_all rfl)⟩

/-! ### Canvas geometry -/

/-- Definition `create_mosaic` unfolded one level: load the tiles, hit the debug
printing loop, then assemble. -/
lemma create_mosaic_eq (target : Img) (dir : List (Option Img)) (g : Nat × Nat) :
    create_mosaic target dir g =
      match loadTiles (target.width / g.1) (target.height / g.2) dir [] [] with
      | Except.error e => Except.error e
      | Except.ok (tileImages, tileColors) =>
        if tileColors.length < 1000 then Except.error MosaicError.indexError
        else assembleGo target tileImages tileColors (target.width / g.1)
          (target.height / g.2) (gridCells g) (imageNew target.width target.height) := rfl

/-- The fresh canvas is black everywhere. -/
lemma imageNew_px (w h x y c : Nat) : (imageNew w h).px x y c = 0 := by
  simp [imageNew, mkImg_px]

/-- Every tile surviving the loading loop was resized to the cell size
(the accumulator hypothesis covers the tiles already collected). -/
lemma loadTiles_dims (cw ch : Nat) :
    ∀ (fs : List (Option Img)) (imgs : List Img) (cols : List Color),
      (∀ t ∈ imgs, t.width ≤ cw ∧ t.height ≤ ch) →
      ∀ imgs' cols', loadTiles cw ch fs imgs cols = Except.ok (imgs', cols') →
        ∀ t ∈ imgs', t.width ≤ cw ∧ t.height ≤ ch := by
  intro fs
  induction fs with
  | nil =>
    intro imgs cols h imgs' cols' hrun
    simp only [loadTiles, Except.ok.injEq, Prod.mk.injEq] at hrun
    obtain ⟨h1, h2⟩ := hrun
    exact h1 ▸ h
  | cons f fs ih =>
    intro imgs cols h imgs' cols' hrun
    match f with
    | none =>
      simp only [loadTiles] at hrun
      exact absurd hrun (by simp)
    | some img =>
      rw [loadTiles_cons_some] at hrun
      cases hres : resize_image img (cw, ch) with
      | error e =>
        rw [hres] at hrun
        exact absurd hrun (by simp)
      | ok r =>
        rw [hres] at hrun
        replace hrun : (match average_color r with
            | Except.ok c => loadTiles cw ch fs (imgs ++ [r]) (cols ++ [c])
            | Except.error _ => loadTiles cw ch fs imgs cols) =
            Except.ok (imgs', cols') := hrun
        cases havg : average_color r with
        | ok c =>
          rw [havg] at hrun
          refine ih _ _ ?_ _ _ hrun
          intro t ht
          rcases List.mem_append.mp ht with h1 | h1
          · exact h t h1
          · rw [List.mem_singleton.mp h1, resize_image_ok hres]
            exact ⟨le_refl cw, le_refl ch⟩
        | error e =>
          rw [havg] at hrun
          exact ih _ _ h _ _ hrun

/-- The tile picked by list indexing keeps the cell-size bound (the
fallback `blankImg` is empty). -/
lemma getD_dims {tiles : List Img} {cw ch : Nat}
    (h : ∀ t ∈ tiles, t.width ≤ cw ∧ t.height ≤ ch) (i : Nat) :
    (tiles.getD i blankImg).width ≤ cw ∧ (tiles.getD i blankImg).height ≤ ch := by
  rcases Nat.lt_or_ge i tiles.length with hlt | hge
  · rw [List.getD_eq_getElem _ _ hlt]
    exact h _ (List.getElem_mem hlt)
  · rw [List.getD_eq_default _ _ hge]
    exact ⟨Nat.zero_le _, Nat.zero_le _⟩

/-- The canvas region at or beyond column `bw` / row `bh` is black. -/
def OutsideBlank (bw bh : Nat) (canvas : Img) : Prop :=
  ∀ x y c, bw ≤ x ∨ bh ≤ y → canvas.px x y c = 0

/-- Pasting one in-grid cell preserves the canvas dimensions and the
blankness of everything beyond the painted `g1·cw × g2·ch` region. -/
lemma placeCell_inv {target : Img} {tiles : List Img} {cols : List Color}
    {cw ch g1 g2 : Nat} (htiles : ∀ t ∈ tiles, t.width ≤ cw ∧ t.height ≤ ch)
    {canvas : Img} {ij : Nat × Nat} (hi : ij.1 < g1) (hj : ij.2 < g2)
    {canvas' : Img} (h : placeCell target tiles cols cw ch canvas ij = Except.ok canvas') :
    canvas'.width = canvas.width ∧ canvas'.height = canvas.height ∧
    canvas'.channels = canvas.channels ∧
    (OutsideBlank (g1 * cw) (g2 * ch) canvas → OutsideBlank (g1 * cw) (g2 * ch) canvas') := by
  have hstep : placeCell target tiles cols cw ch canvas ij =
      match average_color
          (crop target (ij.1 * cw) (ij.2 * ch) ((ij.1 + 1) * cw) ((ij.2 + 1) * ch)) with
      | Except.error e => Except.error e
      | Except.ok targetColor =>
        Except.ok (paste canvas (tiles.getD (closest_image cols targetColor) blankImg)
          (ij.1 * cw) (ij.2 * ch)) := rfl
  rw [hstep] at h
  cases havg : average_color
      (crop target (ij.1 * cw) (ij.2 * ch) ((ij.1 + 1) * cw) ((ij.2 + 1) * ch)) with
  | error e =>
    rw [havg] at h
    exact absurd h (by simp)
  | ok tc =>
    rw [havg] at h
    have hc : canvas' =
        paste canvas (tiles.getD (closest_image cols tc) blankImg) (ij.1 * cw) (ij.2 * ch) :=
      (Except.ok.inj h).symm
    subst hc
    refine ⟨rfl, rfl, rfl, ?_⟩
    intro hob x y c hxy
    obtain ⟨hbw, hbh⟩ := getD_dims htiles (closest_image cols tc)
    have hpx : (paste canvas (tiles.getD (closest_image cols tc) blankImg)
        (ij.1 * cw) (ij.2 * ch)).px x y c =
        if x < canvas.width ∧ y < canvas.height ∧ c < canvas.channels then
          (if ij.1 * cw ≤ x ∧ x < ij.1 * cw + (tiles.getD (closest_image cols tc) blankImg).width ∧
              ij.2 * ch ≤ y ∧ y < ij.2 * ch + (tiles.getD (closest_image cols tc) blankImg).height then
            (tiles.getD (closest_image cols tc) blankImg).px (x - ij.1 * cw) (y - ij.2 * ch) c
          else canvas.px x y c)
        else 0 :=
      mkImg_px canvas.width canvas.height canvas.channels _ x y c
    rw [hpx]
    split
    · split
      · next hreg =>
        obtain ⟨hl, hxr, ht, hyb⟩ := hreg
        have h2 : ij.1 * cw + cw = (ij.1 + 1) * cw := by ring
        have h3 : (ij.1 + 1) * cw ≤ g1 * cw := Nat.mul_le_mul_right cw (Nat.succ_le_of_lt hi)
        have h4 : ij.2 * ch + ch = (ij.2 + 1) * ch := by ring
        have h5 : (ij.2 + 1) * ch ≤ g2 * ch := Nat.mul_le_mul_right ch (Nat.succ_le_of_lt hj)
        rcases hxy with hx | hy
        · have hxw : x < ij.1 * cw + cw := lt_of_lt_of_le hxr (Nat.add_le_add_left hbw _)
          omega
        · have hyh : y < ij.2 * ch + ch := lt_of_lt_of_le hyb (Nat.add_le_add_left hbh _)
          omega
      · exact hob x y c hxy
    · rfl

/-- Running the cell loop from a blank-outside canvas keeps the canvas
dimensions and the untouched region. -/
lemma assembleGo_inv {target : Img} {tiles : List Img} {cols : List Color}
    {cw ch g1 g2 : Nat} (htiles : ∀ t ∈ tiles, t.width ≤ cw ∧ t.height ≤ ch) :
    ∀ (cells : List (Nat × Nat)) (canvas m : Img),
      (∀ ij ∈ cells, ij.1 < g1 ∧ ij.2 < g2) →
      assembleGo target tiles cols cw ch cells canvas = Except.ok m →
      m.width = canvas.width ∧ m.height = canvas.height ∧ m.channels = canvas.channels ∧
      (OutsideBlank (g1 * cw) (g2 * ch) canvas → OutsideBlank (g1 * cw) (g2 * ch) m) := by
  intro cells
  induction cells with
  | nil =>
    intro canvas m hc hrun
    simp only [assembleGo, Except.ok.injEq] at hrun
    subst hrun
    exact ⟨rfl, rfl, rfl, id⟩
  | cons ij rest ih =>
    intro canvas m hc hrun
    have hstep : assembleGo target tiles cols cw ch (ij :: rest) canvas =
        match placeCell target tiles cols cw ch canvas ij with
        | Except.error e => Except.error e
        | Except.ok canvas' => assembleGo target tiles cols cw ch rest canvas' := rfl
    rw [hstep] at hrun
    cases hpc : placeCell target tiles cols cw ch canvas ij with
    | error e =>
      rw [hpc] at hrun
      exact absurd hrun (by simp)
    | ok canvas' =>
      rw [hpc] at hrun
      obtain ⟨hij1, hij2⟩ := hc ij (List.mem_cons_self ij rest)
      obtain ⟨hw1, hh1, hch1, hob1⟩ := placeCell_inv htiles hij1 hij2 hpc
      obtain ⟨hw2, hh2, hch2, hob2⟩ :=
        ih canvas' m (fun p hp => hc p (List.mem_cons_of_mem _ hp)) hrun
      exact ⟨hw2.trans hw1, hh2.trans hh1, hch2.trans hch1, fun hob => hob2 (hob1 hob)⟩

lemma gridCells_mem {g : Nat × Nat} {ij : Nat × Nat} (h : ij ∈ gridCells g) :
    ij.1 < g.1 ∧ ij.2 < g.2 := by
  simp only [gridCells, List.mem_flatMap, List.mem_map, List.mem_range] at h
  obtain ⟨i, hi, j, hj, rfl⟩ := h
  exact ⟨hi, hj⟩

/-- Geometry of every successful run: the canvas has the target's
dimensions, is RGB, and every pixel at or beyond `columns·cell_width`
horizontally or `rows·cell_height` vertically still carries the blank
value 0. -/
lemma create_mosaic_ok {target : Img} {dir : List (Option Img)} {g : Nat × Nat} {m : Img}
    (h : create_mosaic target dir g = Except.ok m) :
    m.width = target.width ∧ m.height = target.height ∧ m.channels = 3 ∧
    ∀ x y c, g.1 * (target.width / g.1) ≤ x ∨ g.2 * (target.height / g.2) ≤ y →
      m.px x y c = 0 := by
  rw [create_mosaic_eq] at h
  cases hl : loadTiles (target.width / g.1) (target.height / g.2) dir [] [] with
  | error e =>
    rw [hl] at h
    exact absurd h (by simp)
  | ok p =>
    obtain ⟨tiles, cols⟩ := p
    rw [hl] at h
    replace h : (if cols.length < 1000 then Except.error MosaicError.indexError
        else assembleGo target tiles cols (target.width / g.1) (target.height / g.2)
          (gridCells g) (imageNew target.width target.height)) = Except.ok m := h
    by_cases hlen : cols.length < 1000
    · rw [if_pos hlen] at h
      exact absurd h (by simp)
    · rw [if_neg hlen] at h
      have htiles := loadTiles_dims _ _ dir [] []
        (fun t ht => absurd ht (List.not_mem_nil t)) tiles cols hl
      obtain ⟨hw, hh, hch, hob⟩ := assembleGo_inv htiles (gridCells g)
        (imageNew target.width target.height) m (fun ij hij => gridCells_mem hij) h
      refine ⟨by rw [hw]; rfl, by rw [hh]; rfl, by rw [hch]; rfl, ?_⟩
      intro x y c hxy
      exact hob (fun x y c _ => imageNew_px _ _ x y c) x y c hxy

/-! ### Claim C9 -/

/-- Claim C9 (confirmed): every successful run returns a canvas with
exactly the target's pixel dimensions, and — since tiles are pasted only
at offsets `(i·cell_width, j·cell_height)` for in-grid `(i, j)` at tile
size at most a cell — every pixel at or beyond `columns·cell_width`
horizontally or `rows·cell_height` vertically is never written and keeps
the initial blank value 0. -/
theorem createMosaic_canvas_geometry (target : Img) (dir : List (Option Img))
    (g : Nat × Nat) (m : Img) (h : create_mosaic target dir g = Except.ok m) :
    m.width = target.width ∧ m.height = target.height ∧
    ∀ x y c, g.1 * (target.width / g.1) ≤ x ∨ g.2 * (target.height / g.2) ≤ y →
      m.px x y c = 0 :=
  let ⟨hw, hh, _, hpx⟩ := create_mosaic_ok h
  ⟨hw, hh, hpx⟩

/-- Witness for `createMosaic_canvas_geometry`: the reference 2×2-grid
run. -/
theorem createMosaic_canvas_geometry_witness :
    mosaic0.width = target0.width ∧ mosaic0.height = target0.height ∧
    ∀ x y c, 2 * (target0.width / 2) ≤ x ∨ 2 * (target0.height / 2) ≤ y →
      mosaic0.px x y c = 0 :=
  createMosaic_canvas_geometry target0 dir1000 (2, 2) mosaic0 run2_eval

/-! ### Claim C10 -/

/-- Claim C10 (confirmed): the embedded `create_mosaic` is a pure function
of the decoded target, the directory listing (the fixed tile ordering) and
the grid size, so two runs over identical inputs that both produce a
canvas produce equal — pixel-for-pixel identical — canvases. -/
theorem createMosaic_deterministic (target : Img) (dir : List (Option Img))
    (g : Nat × Nat) (m₁ m₂ : Img) (h₁ : create_mosaic target dir g = Except.ok m₁)
    (h₂ : create_mosaic target dir g = Except.ok m₂) : m₁ = m₂ :=
  Except.ok.inj (h₁.symm.trans h₂)

/-- Witness for `createMosaic_deterministic`: two evaluations of the
reference run coincide. -/
theorem createMosaic_deterministic_witness : mosaic0 = mosaic0 :=
  createMosaic_deterministic target0 dir1000 (2, 2) mosaic0 mosaic0 run2_eval run2_eval

/-! ### Claim C5 -/

/-- The cell loop can only raise the alpha assertion (via profiling a
grid cell), never an index error. -/
lemma placeCell_error {target : Img} {tiles : List Img} {cols : List Color}
    {cw ch : Nat} {canvas : Img} {ij : Nat × Nat} {e : MosaicError}
    (h : placeCell target tiles cols cw ch canvas ij = Except.error e) :
    e = MosaicError.assertionError := by
  have hstep : placeCell target tiles cols cw ch canvas ij =
      match average_color
          (crop target (ij.1 * cw) (ij.2 * ch) ((ij.1 + 1) * cw) ((ij.2 + 1) * ch)) with
      | Except.error e => Except.error e
      | Except.ok targetColor =>
        Except.ok (paste canvas (tiles.getD (closest_image cols targetColor) blankImg)
          (ij.1 * cw) (ij.2 * ch)) := rfl
  rw [hstep] at h
  cases havg : average_color
      (crop target (ij.1 * cw) (ij.2 * ch) ((ij.1 + 1) * cw) ((ij.2 + 1) * ch)) with
  | error e' =>
    rw [havg] at h
    have h' : Except.error (α := Img) e' = Except.error e := h
    exact (Except.error.inj h') ▸ average_color_error havg
  | ok tc =>
    rw [havg] at h
    exact absurd h (by simp)

/-- Any error of the cell loop is the alpha assertion. -/
lemma assembleGo_error {target : Img} {tiles : List Img} {cols : List Color}
    {cw ch : Nat} :
    ∀ (cells : List (Nat × Nat)) (canvas : Img) (e : MosaicError),
      assembleGo target tiles cols cw ch cells canvas = Except.error e →
      e = MosaicError.assertionError := by
  intro cells
  induction cells with
  | nil =>
    intro canvas e h
    simp only [assembleGo] at h
    exact absurd h (by simp)
  | cons ij rest ih =>
    intro canvas e h
    have hstep : assembleGo target tiles cols cw ch (ij :: rest) canvas =
        match placeCell target tiles cols cw ch canvas ij with
        | Except.error e => Except.error e
        | Except.ok canvas' => assembleGo target tiles cols cw ch rest canvas' := rfl
    rw [hstep] at h
    cases hpc : placeCell target tiles cols cw ch canvas ij with
    | error e' =>
      rw [hpc] at h
      have h' : Except.error (α := Img) e' = Except.error e := h
      exact (Except.error.inj h') ▸ placeCell_error hpc
    | ok canvas' =>
      rw [hpc] at h
      exact ih canvas' e h

/-- Claim C5 (confirmed): whenever tile loading completes, the debug
printing loop `for i in range(1000): print(tile_colors[i])` raises an
out-of-range index error exactly when fewer than 1000 tile colors were
collected — before any cell matching — and the run only proceeds past
this point (never raising that error) when at least 1000 tiles were
loaded. -/
theorem createMosaic_debug_guard (target : Img) (dir : List (Option Img))
    (g : Nat × Nat) (imgs : List Img) (cols : List Color)
    (h : loadTiles (target.width / g.1) (target.height / g.2) dir [] [] =
      Except.ok (imgs, cols)) :
    (cols.length < 1000 → create_mosaic target dir g = Except.error MosaicError.indexError) ∧
    (1000 ≤ cols.length → create_mosaic target dir g ≠ Except.error MosaicError.indexError) := by
  have hred : create_mosaic target dir g =
      if cols.length < 1000 then Except.error MosaicError.indexError
      else assembleGo target imgs cols (target.width / g.1) (target.height / g.2)
        (gridCells g) (imageNew target.width target.height) := by
    rw [create_mosaic_eq, h]
  constructor
  · intro hlen
    rw [hred, if_pos hlen]
  · intro hlen hcon
    rw [hred, if_neg (Nat.not_lt.mpr hlen)] at hcon
    exact absurd (assembleGo_error (gridCells g) _ _ hcon) (by simp)

/-- Witness for `createMosaic_debug_guard`: the empty directory loads zero
tiles, and the run fails with the index error. -/
theorem createMosaic_debug_guard_witness :
    ([] : List Color).length < 1000 ∧
    create_mosaic target0 [] (2, 2) = Except.error MosaicError.indexError :=
  ⟨by decide, (createMosaic_debug_guard target0 [] (2, 2) [] [] rfl).1 (by decide)⟩

/-! ### Claim C4 -/

set_option maxRecDepth 100000 in
/-- Claim C4 counterexample: with an empty tile directory the run does
fail before matching, but with the *same* generic error the debug printing
loop raises for any run with fewer than 1000 tiles (here: 999 perfectly
good tiles) — there is no dedicated empty-tile-set failure. -/
theorem createMosaic_empty_dir_failure :
    create_mosaic target0 [] (2, 2) = Except.error MosaicError.indexError ∧
    create_mosaic target0 (List.replicate 999 (some tile0)) (2, 2) =
      Except.error MosaicError.indexError :=
  ⟨by with_unfolding_all rfl, by with_unfolding_all rfl⟩

/-- Claim C4 (corrected), amended statement: when the Tile Set ends up
empty (empty directory, or every tile skipped by profiling), the run does
fail before any matching is attempted and produces no canvas — but with
the debug loop's out-of-range index error, the same failure every
sub-1000-tile run hits, rather than a dedicated empty-tile-set error. -/
theorem createMosaic_empty_tileset (target : Img) (dir : List (Option Img))
    (g : Nat × Nat)
    (h : loadTiles (target.width / g.1) (target.height / g.2) dir [] [] =
      Except.ok ([], [])) :
    create_mosaic target dir g = Except.error MosaicError.indexError := by
  rw [create_mosaic_eq, h]
  rfl

/-- Witness for `createMosaic_empty_tileset`: the empty directory. -/
theorem createMosaic_empty_tileset_witness :
    loadTiles (target0.width / 2) (target0.height / 2) [] [] [] = Except.ok ([], []) ∧
    create_mosaic target0 [] (2, 2) = Except.error MosaicError.indexError :=
  ⟨rfl, createMosaic_empty_tileset target0 [] (2, 2) rfl⟩

/-! ### Claim C3 -/

/-- Claim C3 counterexample: a 3×3 grid on the 2×2 target makes both cell
dimensions floor to zero. There is no configuration check: the run aborts
only when processing the *first tile*, with the uncaught `ValueError` that
resizing it to a zero-size cell raises outside the `try` block (an
incidental library exception, not a checked configuration error — the
code has no such check). -/
theorem createMosaic_zero_cells_value_error :
    target0.width < 3 ∧
    create_mosaic target0 dir1000 (3, 3) = Except.error MosaicError.valueError :=
  ⟨by decide, run3_eval⟩

/-- Claim C3 (corrected), amended statement: `create_mosaic` performs no
validation of `grid_size` against the target's dimensions and raises no
dedicated configuration error. When `columns` exceeds the target's width
or `rows` exceeds its height, the cell size floors to zero and the run
does abort before producing any canvas — but only incidentally while
processing tiles: an empty directory hits the debug loop's index error,
an unreadable first file the decode error, and otherwise the uncaught
`ValueError` raised by resizing the first tile to a zero-size cell
outside the `try` block. -/
theorem createMosaic_zero_cell_abort (target : Img) (dir : List (Option Img))
    (g : Nat × Nat) (h : target.width < g.1 ∨ target.height < g.2) :
    (∀ m, create_mosaic target dir g ≠ Except.ok m) ∧
    (∀ img rest, dir = some img :: rest →
      create_mosaic target dir g = Except.error MosaicError.valueError) := by
  have hcw : target.width / g.1 = 0 ∨ target.height / g.2 = 0 := by
    rcases h with h | h
    · exact Or.inl (Nat.div_eq_of_lt h)
    · exact Or.inr (Nat.div_eq_of_lt h)
  rcases dir with _ | ⟨f, rest⟩
  · have hrun : create_mosaic target [] g = Except.error MosaicError.indexError := rfl
    refine ⟨fun m hcon => ?_, fun img rest' heq => ?_⟩
    · rw [hrun] at hcon
      exact absurd hcon (by simp)
    · exact absurd heq (by simp)
  · rcases f with _ | img2
    · have hrun : create_mosaic target (none :: rest) g =
          Except.error MosaicError.decodeError := rfl
      refine ⟨fun m hcon => ?_, fun img rest' heq => ?_⟩
      · rw [hrun] at hcon
        exact absurd hcon (by simp)
      · exact absurd heq (by simp)
    · have hres : resize_image img2 (target.width / g.1, target.height / g.2) =
          Except.error MosaicError.valueError := by
        unfold resize_image
        exact if_pos hcw
      have hload : loadTiles (target.width / g.1) (target.height / g.2)
          (some img2 :: rest) [] [] = Except.error MosaicError.valueError := by
        rw [loadTiles_cons_some, hres]
      have hrun : create_mosaic target (some img2 :: rest) g =
          Except.error MosaicError.valueError := by
        rw [create_mosaic_eq, hload]
      refine ⟨fun m hcon => ?_, fun img rest' _ => hrun⟩
      rw [hrun] at hcon
      exact absurd hcon (by simp)

/-- Witness for `createMosaic_zero_cell_abort`: the degenerate 3×3-grid
run over the 2×2 target with 1000 decodable tiles. -/
theorem createMosaic_zero_cell_abort_witness :
    (target0.width < 3 ∨ target0.height < 3) ∧
    ((∀ m, create_mosaic target0 dir1000 (3, 3) ≠ Except.ok m) ∧
    (∀ img rest, dir1000 = some img :: rest →
      create_mosaic target0 dir1000 (3, 3) = Except.error MosaicError.valueError)) :=
  ⟨Or.inl (by decide),
    createMosaic_zero_cell_abort target0 dir1000 (3, 3) (Or.inl (by decide))⟩

end Mosaic
